import Mathlib

/-!
# Local Companion Lifecycle Coordinator — verification of the spec's claims

Shallow embedding of `extensions/gitpod/src/extension.ts`: the persisted
lock (`withLock`, `releaseStaleLocks`), the installation/spawn manager
(`ensureLocalApp`) and the lifecycle coordinator (`withLocalApp`).

Effects (store reads/writes, process kills, sleeps, lock acquisitions) are
made explicit: nondeterministic inputs from the outside world (fetch
results, liveness probes, RPC outcomes, interleaved store states) are
supplied as environment records, and each modelled function returns its
result together with the updated store and a trace of observable events.
-/

namespace Gitpod

/-- A persisted lock record (`interface Lock { value: string; deadline: number }`).
Timestamps (`performance.now()`) are modelled as naturals. -/
structure Lock where
  value : String
  deadline : Nat
deriving DecidableEq, Repr

/-- `interface LocalAppConfig` — the running-config record for one host. -/
structure LocalAppConfig where
  gitpodHost : String
  configFile : String
  apiPort : Nat
  pid : Nat
  logPath : String
deriving DecidableEq, Repr

/-- `interface LocalAppInstallation` — the installation record:
on-disk path plus the optional ETag freshness tag. -/
structure LocalAppInstallation where
  path : String
  etag : Option String
deriving DecidableEq, Repr

/-- `const updateTimeout = 150` — the lock poll interval in milliseconds. -/
def updateTimeout : Nat := 150

/-- `const fastLockTimeout = 30000` — both the fast lock timeout and the
period of the stale-lock sweep timer. -/
def fastLockTimeout : Nat := 30000

/-- `const slowLockTimeout = 300000` — the timeout used for the lock held
around `ensureLocalApp`. -/
def slowLockTimeout : Nat := 300000

/-- The key namespace of lock records (`lockPrefix` in the source,
renamed here). -/
def lockNamespace : String := "lock/"

/-- `vscode.env.sessionId + '/' + lockCount++` — the unique holder token
written into a lock record. -/
def mkToken (sessionId : String) (lockCount : Nat) : String :=
  sessionId ++ "/" ++ Nat.repr lockCount

/-- The value stored under some key of the global state: either a lock
record (a JS object) or some non-object junk (`typeof lock !== 'object'`). -/
inductive StoreVal where
  | lockVal (l : Lock)
  | nonObj
deriving DecidableEq, Repr

/-- Whether a stored value is a well-formed lock record
(the `typeof lock === 'object'` test in `releaseStaleLocks`). -/
def StoreVal.wellFormed : StoreVal → Bool
  | .lockVal _ => true
  | .nonObj => false

/-- Whether `releaseStaleLocks` clears the entry `(key, v)` at time `now`:
the key lies under the lock namespace and
`typeof lock !== 'object' || performance.now() >= lock.deadline`. -/
def staleCleared (now : Nat) (key : String) (v : StoreVal) : Bool :=
  key.startsWith lockNamespace &&
    (match v with
     | .lockVal l => decide (l.deadline ≤ now)
     | .nonObj => true)

/-- `releaseStaleLocks()`: iterate over all keys of the global state and
delete (`update(key, undefined)`) every entry under the lock namespace whose
value is not a well-formed lock record or whose deadline has elapsed.
The global state is an association list of key/value pairs. -/
def releaseStaleLocks (now : Nat) (state : List (String × StoreVal)) :
    List (String × StoreVal) :=
  state.filter (fun kv => !staleCleared now kv.1 kv.2)

/-- The interval of the `releaseStaleLocksTimer`:
`setInterval(() => releaseStaleLocks(), fastLockTimeout)`. -/
def releaseStaleLocksInterval : Nat := fastLockTimeout

/-- One poll iteration of the `withLock` acquisition loop, as seen by a
single caller: `now` is `performance.now()` at this iteration, `r1` the
lock record read at the top of the body, and `r2` the record re-read after
the 150 ms sleep (other processes may have written in between, so both
reads are environment inputs). -/
structure PollEnv where
  now : Nat
  r1 : Option Lock
  r2 : Option Lock
deriving DecidableEq, Repr

/-- Observable actions of the acquisition loop. -/
inductive AcqEvent where
  | write (l : Lock)
  | sleep (ms : Nat)
deriving DecidableEq, Repr

/-- The loop-exit test `currentLock?.value === value` applied to the
re-read record: the caller observes its own token echoed back. -/
def observesEcho (r : Option Lock) (value : String) : Bool :=
  r.map Lock.value == some value

/-- The `withLock` acquisition loop
(`while (currentLock?.value !== value) { ... }`): per iteration, read the
record; if absent, write `{ value, deadline: now + timeout + updateTimeout*2 }`;
sleep `updateTimeout`; re-read; exit when the re-read value equals the
caller's token. Returns the emitted events and whether acquisition
succeeded within the supplied trace of poll observations. -/
def acquireLoop (value : String) (timeout : Nat) :
    List PollEnv → List AcqEvent × Bool
  | [] => ([], false)
  | e :: rest =>
    let w : List AcqEvent :=
      if e.r1 = none then
        [AcqEvent.write ⟨value, e.now + timeout + updateTimeout * 2⟩]
      else []
    if observesEcho e.r2 value then
      (w ++ [AcqEvent.sleep updateTimeout], true)
    else
      let res := acquireLoop value timeout rest
      (w ++ [AcqEvent.sleep updateTimeout] ++ res.1, res.2)

/-- The held phase of `withLock`: once acquired, the protected operation
runs to completion (value or exception, modelled as `Except E T`), and the
`finally` block clears the lock record unconditionally
(`update(lockKey, undefined)`), whatever the record currently stored under
the key is. Returns `none` when acquisition never succeeds within the
trace (the loop is still polling). -/
def withLockRun (value : String) (timeout : Nat) (envs : List PollEnv)
    (storedAtFinish : Option Lock) (opResult : Except String Nat) :
    Option (Except String Nat × Option Lock) :=
  let ok := (acquireLoop value timeout envs).2
  if ok then
    -- the clear in `finally` ignores `storedAtFinish` entirely
    some (opResult, (fun _ => none) storedAtFinish)
  else
    none

/-! ## Coordinator store, environment and events -/

/-- `grpc.Code.Unknown`. -/
def grpcCodeUnknown : Nat := 2

/-- `grpc.Code.Unavailable`. -/
def grpcCodeUnavailable : Nat := 14

/-- The per-host slice of the persisted global state used by the
coordinator: the `config/<authority>` and `installation/<authority>` keys. -/
structure Store where
  config : Option LocalAppConfig
  installation : Option LocalAppInstallation
deriving DecidableEq, Repr

/-- The download response after the `download.ok` check: only the ETag
header matters downstream (`download.headers.get('etag')`). -/
structure DlResp where
  etag : Option String
deriving DecidableEq, Repr

/-- Decidable equality for fallible results, needed to evaluate the model
on concrete inputs. -/
instance instDecidableEqExcept {ε α : Type} [DecidableEq ε] [DecidableEq α] :
    DecidableEq (Except ε α)
  | .error a, .error b =>
    if h : a = b then .isTrue (by rw [h])
    else .isFalse (by intro hc; cases hc; exact h rfl)
  | .error _, .ok _ => .isFalse (by intro hc; cases hc)
  | .ok _, .error _ => .isFalse (by intro hc; cases hc)
  | .ok a, .ok b =>
    if h : a = b then .isTrue (by rw [h])
    else .isFalse (by intro hc; cases hc; exact h rfl)

/-- Environment inputs for one `ensureLocalApp` call: the fetch outcome
(already folded with the `!download.ok` check: an HTTP error or network
error is an `Except.error` carrying the message), whether the cancellation
token fires, whether `fs.promises.access(installation.path, X_OK)`
succeeds, and the outcomes of `installLocalApp` and `startLocalApp`. -/
structure EnsureEnv where
  download : Except String DlResp
  cancelled : Bool
  executable : Bool
  installResult : Except String LocalAppInstallation
  spawnResult : Except String LocalAppConfig
deriving DecidableEq, Repr

/-- Observable events of `ensureLocalApp` and `withLocalApp`. -/
inductive Event where
  | fetch
  | killPid (pid : Nat)
  | accessCheck (path : String)
  | install
  | spawn
  | acquireLock (name : String) (timeout : Nat)
  | probe (pid : Nat)
  | sleep (ms : Nat)
deriving DecidableEq, Repr

/-- The fetch result as seen after the `try`/`catch` around
`downloadLocalApp`: a cancellation raised by the `throwIfCancelled` right
after the fetch is caught by the same `catch (e) { download = e }`, so it
too ends up as an error value rather than a thrown exception. -/
def effectiveDownload (env : EnsureEnv) : Except String DlResp :=
  match env.download with
  | .error m => .error m
  | .ok d => if env.cancelled then .error "cancelled" else .ok d

/-- The upgrade test of `ensureLocalApp`
(`upgrade && upgrade.etag && upgrade.etag !== installation.etag`): the
fetch succeeded, carries an ETag, and that ETag differs from the cached
installation's tag. `false` whenever no installation record is cached. -/
def upgradeTriggered (dl : Except String DlResp)
    (inst : Option LocalAppInstallation) : Bool :=
  match dl, inst with
  | .ok d, some i =>
    match d.etag with
    | some t => some t != i.etag
    | none => false
  | _, _ => false

/-- `ensureLocalApp(gitpodHost, configKey, installationKey, token)`:
fetch the binary (capturing failure), read the cached config and
installation, invalidate both and kill the recorded process on an ETag
upgrade, return the cached config if one survives, validate the cached
installation's executability, install fresh if needed, then spawn and
record a new config. Returns the result, the updated store and the event
trace. -/
def ensureLocalApp (env : EnsureEnv) (store : Store) :
    Except String LocalAppConfig × Store × List Event :=
  let download := effectiveDownload env
  let config := store.config
  let installation := store.installation
  -- upgrade invalidation (lines 244-258): local variables are cleared and
  -- the recorded process killed; the store keys are only overwritten later
  let killEvs : List Event :=
    if upgradeTriggered download installation then
      match config with
      | some c => [Event.killPid c.pid]
      | none => []
    else []
  let config := if upgradeTriggered download installation then none else config
  let installation :=
    if upgradeTriggered download installation then none else installation
  match config with
  | some c => (.ok c, store, Event.fetch :: killEvs)
  | none =>
    -- executability check (lines 262-269): a failed access *or* a
    -- cancellation inside the try clears the local installation variable
    let accessEvs : List Event :=
      match installation with
      | some i => [Event.accessCheck i.path]
      | none => []
    let installation :=
      match installation with
      | some i => if env.executable && !env.cancelled then some i else none
      | none => none
    match installation with
    | some i =>
      -- cached installation is reused: no install, straight to spawn
      match env.spawnResult with
      | .error m =>
        (.error m, { store with installation := some i },
          Event.fetch :: killEvs ++ accessEvs ++ [Event.spawn])
      | .ok newCfg =>
        let store := { store with installation := some i, config := some newCfg }
        if env.cancelled then
          (.error "cancelled", store,
            Event.fetch :: killEvs ++ accessEvs ++ [Event.spawn])
        else
          (.ok newCfg, store,
            Event.fetch :: killEvs ++ accessEvs ++ [Event.spawn])
    | none =>
      match download with
      | .error m => (.error m, store, Event.fetch :: killEvs ++ accessEvs)
      | .ok _ =>
        match env.installResult with
        | .error m =>
          (.error m, store, Event.fetch :: killEvs ++ accessEvs ++ [Event.install])
        | .ok newInst =>
          let store := { store with installation := some newInst }
          if env.cancelled then
            (.error "cancelled", store,
              Event.fetch :: killEvs ++ accessEvs ++ [Event.install])
          else
            match env.spawnResult with
            | .error m =>
              (.error m, store,
                Event.fetch :: killEvs ++ accessEvs ++ [Event.install, Event.spawn])
            | .ok newCfg =>
              let store := { store with config := some newCfg }
              if env.cancelled then
                (.error "cancelled", store,
                  Event.fetch :: killEvs ++ accessEvs ++ [Event.install, Event.spawn])
              else
                (.ok newCfg, store,
                  Event.fetch :: killEvs ++ accessEvs ++ [Event.install, Event.spawn])

/-- Outcome of one invocation of the caller's RPC operation
`op(client, config)`: success, or an exception whose `code` field may be a
gRPC status code, together with the zero-signal probe result
(`process.kill(config.pid, 0)` succeeding means the process is alive). -/
inductive OpOutcome (T : Type) where
  | ok (v : T)
  | fail (code : Option Nat) (alive : Bool)
deriving DecidableEq, Repr

/-- Environment inputs for one iteration of the `withLocalApp` loop. -/
structure IterEnv (T : Type) where
  ensure : EnsureEnv
  op : OpOutcome T
deriving DecidableEq, Repr

/-- Result of a `withLocalApp` call. -/
inductive LoopResult (T : Type) where
  /-- `op` returned a value. -/
  | ok (v : T)
  /-- the error thrown out of `withLock(... ensureLocalApp ...)` propagated. -/
  | ensureFailed (msg : String)
  /-- a fatal RPC error (process alive, non-transient code) propagated. -/
  | opFailed (code : Option Nat)
  /-- `throw new Error('failed to access the local app')` after the budget. -/
  | unavailable (msg : String)
  /-- the supplied environment trace ended while the loop was still running. -/
  | outOfEnv
deriving DecidableEq, Repr

/-- The transient-retry test (line 305):
`running === true && (e.code === grpc.Code.Unavailable || e.code === grpc.Code.Unknown)`. -/
def transientRetry (code : Option Nat) (alive : Bool) : Bool :=
  alive && (code == some grpcCodeUnavailable || code == some grpcCodeUnknown)

/-- The critical section of the restart path (lines 317-321), run under the
fast host lock: clear the cached running-config only when the stored value
still equals the failed config, compared by value
(`JSON.stringify(get(configKey)) === JSON.stringify(config)`); otherwise
leave the store untouched. The store argument is the state as observed
inside the lock, which concurrent processes may have refreshed since the
failure. -/
def clearIfCurrent (failed : LocalAppConfig) (store : Store) : Store :=
  if store.config = some failed then { store with config := none } else store

/-- The `while (restartAttempts < 5)` loop of `withLocalApp`: each
iteration acquires the host lock, runs `ensureLocalApp`, then the RPC
operation; on transient failure with the process alive it sleeps 1 s and
re-enters the loop without touching the restart counter; on a fatal error
with the process alive it rethrows; on a dead process it clears the cached
config under the fast lock when it still equals the failed one
(`JSON.stringify` comparison, i.e. structural equality), increments the
counter and re-enters. Returns the result, final store, events, and the
final restart counter. -/
def withLocalAppLoop {T : Type} (auth : String) :
    List (IterEnv T) → Nat → Store → LoopResult T × Store × List Event × Nat
  | envs, r, store =>
    if 5 ≤ r then
      (.unavailable "failed to access the local app", store, [], r)
    else
      match envs with
      | [] => (.outOfEnv, store, [], r)
      | e :: rest =>
        let ens := ensureLocalApp e.ensure store
        let store1 := ens.2.1
        let evs := Event.acquireLock auth slowLockTimeout :: ens.2.2
        match ens.1 with
        | .error m => (.ensureFailed m, store1, evs, r)
        | .ok config =>
          match e.op with
          | .ok v => (.ok v, store1, evs, r)
          | .fail code alive =>
            let evs := evs ++ [Event.probe config.pid]
            if transientRetry code alive then
              -- `continue`: sleep 1 s and re-enter the loop, counter untouched
              let rec2 := withLocalAppLoop auth rest r store1
              (rec2.1, rec2.2.1, evs ++ [Event.sleep 1000] ++ rec2.2.2.1, rec2.2.2.2)
            else if alive then
              (.opFailed code, store1, evs, r)
            else
              -- dead: under the fast lock, clear the cached config only if it
              -- still equals the failed one, then count a restart attempt
              let store2 := clearIfCurrent config store1
              let evs := evs ++ [Event.acquireLock auth fastLockTimeout]
              let rec2 := withLocalAppLoop auth rest (r + 1) store2
              (rec2.1, rec2.2.1, evs ++ rec2.2.2.1, rec2.2.2.2)

/-! ## Concrete fixtures for witnesses and counterexamples -/

/-- A running-config as produced by a successful spawn. -/
def cachedCfg : LocalAppConfig :=
  ⟨"https://gitpod.io", "/tmp/gitpod_ssh_config", 41000, 4242, "/tmp/app.log"⟩

/-- An installation record for a binary whose download carried no ETag. -/
def freshInst : LocalAppInstallation := ⟨"/tmp/gitpod-local-companion", none⟩

/-- Store slice with a cached running-config and no installation record. -/
def cachedStore : Store := ⟨some cachedCfg, none⟩

/-- Store slice with neither a config nor an installation record. -/
def emptyStore : Store := ⟨none, none⟩

/-- Environment where the fetch succeeds with no ETag and the cached
records make install and spawn unreachable. -/
def fetchOnlyEnv : EnsureEnv :=
  ⟨.ok ⟨none⟩, false, true, .error "unused", .error "unused"⟩

/-- Environment where provisioning fully succeeds from scratch. -/
def deadEnsureEnv : EnsureEnv := ⟨.ok ⟨none⟩, false, true, .ok freshInst, .ok cachedCfg⟩

/-- Loop iteration whose RPC fails with `Unavailable` while the process is
alive. -/
def transientIter : IterEnv Nat := ⟨fetchOnlyEnv, .fail (some grpcCodeUnavailable) true⟩

/-- Loop iteration whose RPC succeeds, returning 42. -/
def successIter : IterEnv Nat := ⟨fetchOnlyEnv, .ok 42⟩

/-- Loop iteration whose RPC fails with the process dead. -/
def deadIter : IterEnv Nat := ⟨deadEnsureEnv, .fail none false⟩

/-! ## Helper lemmas -/

lemma loop_at_budget {T : Type} (auth : String) (envs : List (IterEnv T)) (r : Nat)
    (store : Store) (h : 5 ≤ r) :
    withLocalAppLoop auth envs r store =
      (.unavailable "failed to access the local app", store, [], r) := by
  unfold withLocalAppLoop
  rw [if_pos h]

lemma acquireLoop_writes (tok : String) (timeout : Nat) :
    ∀ (envs : List PollEnv) (l : Lock),
      AcqEvent.write l ∈ (acquireLoop tok timeout envs).1 →
      l.value = tok ∧ ∃ e, e ∈ envs ∧ e.r1 = none ∧
        l.deadline = e.now + timeout + updateTimeout * 2 := by
  intro envs
  induction envs with
  | nil => intro l h; simp [acquireLoop] at h
  | cons e rest ih =>
    intro l h
    by_cases hr1 : e.r1 = none <;> by_cases hob : observesEcho e.r2 tok <;>
      simp [acquireLoop, hr1, hob] at h
    · exact ⟨by rw [h], e, by simp, hr1, by rw [h]⟩
    · rcases h with h | h
      · exact ⟨by rw [h], e, by simp, hr1, by rw [h]⟩
      · rcases ih l h with ⟨hv, e2, he2, hr2, hd⟩
        exact ⟨hv, e2, by simp [he2], hr2, hd⟩
    · rcases ih l h with ⟨hv, e2, he2, hr2, hd⟩
      exact ⟨hv, e2, by simp [he2], hr2, hd⟩

lemma acquireLoop_write_when_absent (tok : String) (timeout : Nat) (e : PollEnv)
    (rest : List PollEnv) (hr1 : e.r1 = none) :
    AcqEvent.write ⟨tok, e.now + timeout + updateTimeout * 2⟩
      ∈ (acquireLoop tok timeout (e :: rest)).1 := by
  by_cases hob : observesEcho e.r2 tok <;> simp [acquireLoop, hr1, hob]

lemma acquireLoop_succeeds_iff (tok : String) (timeout : Nat) :
    ∀ envs : List PollEnv,
      (acquireLoop tok timeout envs).2 = true ↔
        ∃ e, e ∈ envs ∧ observesEcho e.r2 tok = true := by
  intro envs
  induction envs with
  | nil => simp [acquireLoop]
  | cons e rest ih =>
    by_cases hob : observesEcho e.r2 tok
    · simp [acquireLoop, hob]
    · simp [acquireLoop, hob, ih]

lemma acquireLoop_sleeps (tok : String) (timeout : Nat) :
    ∀ (envs : List PollEnv) (ms : Nat),
      AcqEvent.sleep ms ∈ (acquireLoop tok timeout envs).1 → ms = updateTimeout := by
  intro envs
  induction envs with
  | nil => intro ms h; simp [acquireLoop] at h
  | cons e rest ih =>
    intro ms h
    by_cases hr1 : e.r1 = none <;> by_cases hob : observesEcho e.r2 tok <;>
      simp [acquireLoop, hr1, hob] at h
    · exact h
    · rcases h with h | h
      · exact h
      · exact ih ms h
    · exact h
    · rcases h with h | h
      · exact h
      · exact ih ms h

lemma staleCleared_iff (now : Nat) (k : String) (v : StoreVal) :
    staleCleared now k v = true ↔
      k.startsWith lockNamespace = true ∧
        (v.wellFormed = false ∨ ∃ l, v = StoreVal.lockVal l ∧ l.deadline ≤ now) := by
  cases v with
  | lockVal l => simp [staleCleared, StoreVal.wellFormed]
  | nonObj => simp [staleCleared, StoreVal.wellFormed]

lemma ensure_cached (env : EnsureEnv) (store : Store) (c : LocalAppConfig)
    (hc : store.config = some c)
    (hup : upgradeTriggered (effectiveDownload env) store.installation = false) :
    ensureLocalApp env store = (.ok c, store, [Event.fetch]) := by
  simp [ensureLocalApp, hup, hc]

lemma loop_success_step (auth : String) (e : IterEnv Nat) (rest : List (IterEnv Nat))
    (r : Nat) (store store1 : Store) (cfg : LocalAppConfig) (evs1 : List Event) (v : Nat)
    (hr : r < 5) (hens : ensureLocalApp e.ensure store = (.ok cfg, store1, evs1))
    (hop : e.op = .ok v) :
    withLocalAppLoop auth (e :: rest) r store =
      (.ok v, store1, Event.acquireLock auth slowLockTimeout :: evs1, r) := by
  unfold withLocalAppLoop
  rw [if_neg (Nat.not_le.mpr hr)]
  simp [hens, hop]

lemma loop_fail_probes (auth : String) (e : IterEnv Nat) (rest : List (IterEnv Nat))
    (r : Nat) (store store1 : Store) (cfg : LocalAppConfig) (evs1 : List Event)
    (code : Option Nat) (alive : Bool)
    (hr : r < 5) (hens : ensureLocalApp e.ensure store = (.ok cfg, store1, evs1))
    (hop : e.op = .fail code alive) :
    Event.probe cfg.pid ∈ (withLocalAppLoop auth (e :: rest) r store).2.2.1 := by
  unfold withLocalAppLoop
  rw [if_neg (Nat.not_le.mpr hr)]
  simp only [hens, hop]
  split_ifs <;> simp

lemma loop_transient_step (auth : String) (e : IterEnv Nat) (rest : List (IterEnv Nat))
    (r : Nat) (store store1 : Store) (cfg : LocalAppConfig) (evs1 : List Event)
    (code : Option Nat)
    (hr : r < 5) (hens : ensureLocalApp e.ensure store = (.ok cfg, store1, evs1))
    (hop : e.op = .fail code true)
    (hcode : code = some grpcCodeUnavailable ∨ code = some grpcCodeUnknown) :
    withLocalAppLoop auth (e :: rest) r store =
      ((withLocalAppLoop auth rest r store1).1,
       (withLocalAppLoop auth rest r store1).2.1,
       (Event.acquireLock auth slowLockTimeout :: evs1
          ++ [Event.probe cfg.pid, Event.sleep 1000])
         ++ (withLocalAppLoop auth rest r store1).2.2.1,
       (withLocalAppLoop auth rest r store1).2.2.2) := by
  have ht : transientRetry code true = true := by
    rcases hcode with h | h <;> simp [transientRetry, h]
  conv_lhs => rw [withLocalAppLoop]
  rw [if_neg (Nat.not_le.mpr hr)]
  simp [hens, hop, ht]

lemma loop_dead_step (auth : String) (e : IterEnv Nat) (rest : List (IterEnv Nat))
    (r : Nat) (store store1 : Store) (cfg : LocalAppConfig) (evs1 : List Event)
    (code : Option Nat)
    (hr : r < 5) (hens : ensureLocalApp e.ensure store = (.ok cfg, store1, evs1))
    (hop : e.op = .fail code false) :
    withLocalAppLoop auth (e :: rest) r store =
      ((withLocalAppLoop auth rest (r + 1) (clearIfCurrent cfg store1)).1,
       (withLocalAppLoop auth rest (r + 1) (clearIfCurrent cfg store1)).2.1,
       (Event.acquireLock auth slowLockTimeout :: evs1
          ++ [Event.probe cfg.pid, Event.acquireLock auth fastLockTimeout])
         ++ (withLocalAppLoop auth rest (r + 1) (clearIfCurrent cfg store1)).2.2.1,
       (withLocalAppLoop auth rest (r + 1) (clearIfCurrent cfg store1)).2.2.2) := by
  conv_lhs => rw [withLocalAppLoop]
  rw [if_neg (Nat.not_le.mpr hr)]
  simp [hens, hop, transientRetry]

/-! ## The claims -/

/-- C1: every iteration of `withLocalApp` whose RPC fails with the helper
process dead consumes exactly one restart attempt (see the dead-step shape
in `loop_dead_step`, restated for C9), and once the counter reaches 5 the
loop throws `Error('failed to access the local app')` without consuming
further environment input. Concretely, five consecutive process-dead
failures starting from an empty store exhaust the budget and fail with
that message whatever happens afterwards, with the final counter equal
to 5. -/
theorem C1_restart_budget :
    (∀ (T : Type) (auth : String) (envs : List (IterEnv T)) (r : Nat) (store : Store),
      5 ≤ r →
      withLocalAppLoop auth envs r store =
        (.unavailable "failed to access the local app", store, [], r)) ∧
    (∀ rest : List (IterEnv Nat),
      (withLocalAppLoop "gitpod.io" (List.replicate 5 deadIter ++ rest) 0 emptyStore).1
        = .unavailable "failed to access the local app" ∧
      (withLocalAppLoop "gitpod.io" (List.replicate 5 deadIter ++ rest) 0 emptyStore).2.2.2
        = 5) := by
  refine ⟨fun T auth envs r store h => loop_at_budget auth envs r store h, fun rest => ?_⟩
  simp +decide [withLocalAppLoop, ensureLocalApp, effectiveDownload, upgradeTriggered,
    transientRetry, clearIfCurrent, deadIter, deadEnsureEnv, emptyStore, freshInst,
    cachedCfg, grpcCodeUnavailable, grpcCodeUnknown]
  rw [loop_at_budget _ _ _ _ (Nat.le_refl 5)]
  exact ⟨rfl, rfl⟩

/-- Witness for C1 at a concrete exhausted counter. -/
theorem C1_witness :
    withLocalAppLoop "gitpod.io" ([] : List (IterEnv Nat)) 6 emptyStore
      = (.unavailable "failed to access the local app", emptyStore, [], 6) :=
  C1_restart_budget.1 Nat "gitpod.io" [] 6 emptyStore (by decide)

/-- C2 (as stated) is false on the code: after a transient failure
(process alive, code `Unavailable`), the `continue` statement re-enters
the top of the `while` loop, which re-runs
`withLock(gitpodAuthority, ensureLocalApp, slowLockTimeout)` — so the
retry does re-acquire the host lock. In a run with one transient failure
followed by a success, the slow host lock is acquired twice (once per
attempt) rather than once, though the operation still returns the
success value with the restart counter at 0. -/
theorem C2_lock_reacquired_counterexample :
    (withLocalAppLoop "gitpod.io" [transientIter, successIter] 0 cachedStore).1
        = .ok 42 ∧
      (withLocalAppLoop "gitpod.io" [transientIter, successIter] 0 cachedStore).2.2.2
        = 0 ∧
      ((withLocalAppLoop "gitpod.io" [transientIter, successIter] 0 cachedStore).2.2.1).count
          (Event.acquireLock "gitpod.io" slowLockTimeout) = 2 := by
  decide

/-- C2 (amended): when the RPC fails while the zero-signal probe shows the
process alive and the code is `Unavailable` or `Unknown`, the coordinator
sleeps 1 s and re-enters the loop — re-acquiring the host lock and
re-running `ensureLocalApp`, which yields the same cached config when the
store is unchanged — without consuming a restart attempt; two consecutive
such failures followed by a success return the third attempt's result
with the restart counter still 0. -/
theorem C2_transient_retry_amended :
    (∀ (auth : String) (e : IterEnv Nat) (rest : List (IterEnv Nat)) (r : Nat)
      (store store1 : Store) (cfg : LocalAppConfig) (evs1 : List Event)
      (code : Option Nat),
      r < 5 → ensureLocalApp e.ensure store = (.ok cfg, store1, evs1) →
      e.op = .fail code true →
      code = some grpcCodeUnavailable ∨ code = some grpcCodeUnknown →
      withLocalAppLoop auth (e :: rest) r store =
        ((withLocalAppLoop auth rest r store1).1,
         (withLocalAppLoop auth rest r store1).2.1,
         (Event.acquireLock auth slowLockTimeout :: evs1
            ++ [Event.probe cfg.pid, Event.sleep 1000])
           ++ (withLocalAppLoop auth rest r store1).2.2.1,
         (withLocalAppLoop auth rest r store1).2.2.2)) ∧
    withLocalAppLoop "gitpod.io" [transientIter, transientIter, successIter] 0 cachedStore =
      (.ok 42, cachedStore,
        [Event.acquireLock "gitpod.io" slowLockTimeout, Event.fetch,
         Event.probe 4242, Event.sleep 1000,
         Event.acquireLock "gitpod.io" slowLockTimeout, Event.fetch,
         Event.probe 4242, Event.sleep 1000,
         Event.acquireLock "gitpod.io" slowLockTimeout, Event.fetch], 0) :=
  ⟨loop_transient_step, by decide⟩

/-- Witness for C2 (amended) at a concrete transient-then-success run. -/
theorem C2_witness :
    withLocalAppLoop "gitpod.io" [transientIter, successIter] 0 cachedStore =
      ((withLocalAppLoop "gitpod.io" [successIter] 0 cachedStore).1,
       (withLocalAppLoop "gitpod.io" [successIter] 0 cachedStore).2.1,
       (Event.acquireLock "gitpod.io" slowLockTimeout :: [Event.fetch]
          ++ [Event.probe cachedCfg.pid, Event.sleep 1000])
         ++ (withLocalAppLoop "gitpod.io" [successIter] 0 cachedStore).2.2.1,
       (withLocalAppLoop "gitpod.io" [successIter] 0 cachedStore).2.2.2) :=
  C2_transient_retry_amended.1 "gitpod.io" transientIter [successIter] 0 cachedStore
    cachedStore cachedCfg [Event.fetch] (some grpcCodeUnavailable)
    (by decide) (by decide) rfl (Or.inl rfl)

/-- C3: at any single store state, the re-read echo check
(`currentLock?.value === value`) can hold for at most one token: the lock
key stores a single record, so two callers with distinct tokens can never
both observe their own token echoed back at the same moment. -/
theorem C3_echo_mutual_exclusion :
    ∀ (s : Option Lock) (t1 t2 : String), t1 ≠ t2 →
      observesEcho s t1 = true → observesEcho s t2 = true → False := by
  intro s t1 t2 hne h1 h2
  cases s with
  | none => simp [observesEcho] at h1
  | some l =>
    simp [observesEcho] at h1 h2
    exact hne (h1.symm.trans h2)

/-- Witness for C3: the stored holder's token echoes, a competitor's
token cannot. -/
theorem C3_witness :
    observesEcho (some ⟨"aaa/0", 330⟩) "aaa/0" = true ∧
      ¬observesEcho (some ⟨"aaa/0", 330⟩) "bbb/1" = true :=
  ⟨by decide, fun h => C3_echo_mutual_exclusion (some ⟨"aaa/0", 330⟩) "aaa/0" "bbb/1"
    (by decide) (by decide) h⟩

/-- C4: the acquisition loop polls at the fixed 150 ms interval (every
sleep it emits is `updateTimeout = 150`), its token is the session
identifier joined to the local counter, every write it performs stores the
caller's token with deadline `now + timeout + 2 × 150` and happens only at
an iteration whose first read found no record, a write does happen when
the first read finds none, and acquisition succeeds exactly when some
re-read echoes the caller's token. -/
theorem C4_acquisition_algorithm :
    updateTimeout = 150 ∧
    (∀ (sid : String) (n : Nat), mkToken sid n = sid ++ "/" ++ Nat.repr n) ∧
    (∀ (tok : String) (timeout : Nat) (envs : List PollEnv) (l : Lock),
      AcqEvent.write l ∈ (acquireLoop tok timeout envs).1 →
      l.value = tok ∧ ∃ e, e ∈ envs ∧ e.r1 = none ∧
        l.deadline = e.now + timeout + updateTimeout * 2) ∧
    (∀ (tok : String) (timeout : Nat) (e : PollEnv) (rest : List PollEnv),
      e.r1 = none →
      AcqEvent.write ⟨tok, e.now + timeout + updateTimeout * 2⟩
        ∈ (acquireLoop tok timeout (e :: rest)).1) ∧
    (∀ (tok : String) (timeout : Nat) (envs : List PollEnv),
      (acquireLoop tok timeout envs).2 = true ↔
        ∃ e, e ∈ envs ∧ observesEcho e.r2 tok = true) ∧
    (∀ (tok : String) (timeout : Nat) (envs : List PollEnv) (ms : Nat),
      AcqEvent.sleep ms ∈ (acquireLoop tok timeout envs).1 → ms = updateTimeout) :=
  ⟨rfl, fun _ _ => rfl, acquireLoop_writes, acquireLoop_write_when_absent,
    acquireLoop_succeeds_iff, acquireLoop_sleeps⟩

/-- Witness for C4: a first read finding no record produces the optimistic
write with the computed deadline. -/
theorem C4_witness :
    AcqEvent.write ⟨mkToken "sess" 3, 7 + 30000 + updateTimeout * 2⟩
      ∈ (acquireLoop (mkToken "sess" 3) 30000 [⟨7, none, none⟩]).1 :=
  C4_acquisition_algorithm.2.2.2.1 (mkToken "sess" 3) 30000 ⟨7, none, none⟩ [] rfl

/-- C5: with a cached installation record whose ETag equals the one the
fetch returned, and a binary still executable on disk, `ensureLocalApp`
never installs a fresh copy of the helper binary (no install event), and
the cached installation record survives unchanged. -/
theorem C5_no_redownload_when_fresh :
    ∀ (env : EnsureEnv) (store : Store) (inst : LocalAppInstallation) (t : String),
      store.installation = some inst → env.download = .ok ⟨some t⟩ →
      inst.etag = some t → env.executable = true → env.cancelled = false →
      Event.install ∉ (ensureLocalApp env store).2.2 ∧
        (ensureLocalApp env store).2.1.installation = some inst := by
  intro env store inst t hinst hdl hetag hex hcan
  cases hc : store.config with
  | some c =>
    simp [ensureLocalApp, effectiveDownload, upgradeTriggered, hinst, hdl, hetag, hcan, hc]
  | none =>
    cases hsp : env.spawnResult with
    | error m =>
      simp [ensureLocalApp, effectiveDownload, upgradeTriggered, hinst, hdl, hetag, hcan,
        hc, hex, hsp]
    | ok newCfg =>
      simp [ensureLocalApp, effectiveDownload, upgradeTriggered, hinst, hdl, hetag, hcan,
        hc, hex, hsp]

/-- Witness for C5 at a concrete matching-ETag store. -/
theorem C5_witness :
    Event.install ∉ (ensureLocalApp ⟨.ok ⟨some "v7"⟩, false, true, .error "x", .ok cachedCfg⟩
        ⟨none, some ⟨"/tmp/app", some "v7"⟩⟩).2.2 ∧
      (ensureLocalApp ⟨.ok ⟨some "v7"⟩, false, true, .error "x", .ok cachedCfg⟩
        ⟨none, some ⟨"/tmp/app", some "v7"⟩⟩).2.1.installation
        = some ⟨"/tmp/app", some "v7"⟩ :=
  C5_no_redownload_when_fresh ⟨.ok ⟨some "v7"⟩, false, true, .error "x", .ok cachedCfg⟩
    ⟨none, some ⟨"/tmp/app", some "v7"⟩⟩ ⟨"/tmp/app", some "v7"⟩ "v7"
    rfl rfl rfl rfl rfl

/-- C6: with a cached installation whose ETag differs from the fetched
one, `ensureLocalApp` kills the recorded running process by its pid,
discards both cached records, installs fresh and spawns anew: the result
is the new config, the final store holds exactly the new installation and
new config, and the event trace is fetch, kill(old pid), install, spawn. -/
theorem C6_upgrade_invalidation :
    ∀ (env : EnsureEnv) (store : Store) (inst : LocalAppInstallation)
      (oldCfg : LocalAppConfig) (d : DlResp) (t : String)
      (newInst : LocalAppInstallation) (newCfg : LocalAppConfig),
      store.installation = some inst → store.config = some oldCfg →
      env.download = .ok d → d.etag = some t → some t ≠ inst.etag →
      env.cancelled = false → env.installResult = .ok newInst →
      env.spawnResult = .ok newCfg →
      ensureLocalApp env store =
        (.ok newCfg, ⟨some newCfg, some newInst⟩,
          [Event.fetch, Event.killPid oldCfg.pid, Event.install, Event.spawn]) := by
  intro env store inst oldCfg d t newInst newCfg hinst hcfg hdl hetag hne hcan hir hsp
  have hbne : (some t != inst.etag) = true := bne_iff_ne.mpr hne
  simp [ensureLocalApp, effectiveDownload, upgradeTriggered, hinst, hcfg, hdl, hetag,
    hbne, hcan, hir, hsp]

/-- Witness for C6 at a concrete differing-ETag store. -/
theorem C6_witness :
    ensureLocalApp ⟨.ok ⟨some "v8"⟩, false, true, .ok ⟨"/tmp/new", some "v8"⟩, .ok cachedCfg⟩
        ⟨some ⟨"h", "f", 1, 999, "l"⟩, some ⟨"/tmp/old", some "v7"⟩⟩ =
      (.ok cachedCfg, ⟨some cachedCfg, some ⟨"/tmp/new", some "v8"⟩⟩,
        [Event.fetch, Event.killPid 999, Event.install, Event.spawn]) :=
  C6_upgrade_invalidation _ _ ⟨"/tmp/old", some "v7"⟩ ⟨"h", "f", 1, 999, "l"⟩ ⟨some "v8"⟩
    "v8" ⟨"/tmp/new", some "v8"⟩ cachedCfg rfl rfl rfl rfl (by decide) rfl rfl rfl

/-- C7: the stale-lock sweep runs every 30 s (`fastLockTimeout`), touches
only keys under the `lock/` namespace, and clears exactly the entries
whose value is not a well-formed lock record or whose deadline has
elapsed: an entry survives the sweep iff it was present and is not such
an entry. -/
theorem C7_stale_sweep :
    releaseStaleLocksInterval = 30000 ∧
    (∀ (now : Nat) (st : List (String × StoreVal)) (k : String) (v : StoreVal),
      (k, v) ∈ releaseStaleLocks now st ↔
        (k, v) ∈ st ∧
          ¬(k.startsWith lockNamespace = true ∧
            (v.wellFormed = false ∨ ∃ l, v = StoreVal.lockVal l ∧ l.deadline ≤ now))) := by
  refine ⟨rfl, fun now st k v => ?_⟩
  rw [releaseStaleLocks, List.mem_filter]
  simp only [Bool.not_eq_true']
  rw [Bool.eq_false_iff]
  simp only [Ne, staleCleared_iff]

/-- C8: whenever `withLock` completes its protected operation — with a
value or an exception — the `finally` block clears the lock record
unconditionally: the operation's outcome passes through, the final lock
state is absent, and the record stored at finish time (which may no longer
hold the caller's token) plays no role at all. -/
theorem C8_unconditional_clear :
    (∀ (value : String) (timeout : Nat) (envs : List PollEnv) (stored : Option Lock)
      (opResult res : Except String Nat) (lock' : Option Lock),
      withLockRun value timeout envs stored opResult = some (res, lock') →
      res = opResult ∧ lock' = none) ∧
    (∀ (value : String) (timeout : Nat) (envs : List PollEnv)
      (s1 s2 : Option Lock) (opResult : Except String Nat),
      withLockRun value timeout envs s1 opResult
        = withLockRun value timeout envs s2 opResult) := by
  constructor
  · intro value timeout envs stored opResult res lock' h
    unfold withLockRun at h
    by_cases hok : (acquireLoop value timeout envs).2 = true
    · simp [hok] at h
      exact ⟨h.1.symm, h.2.symm⟩
    · simp [hok] at h
  · intro value timeout envs s1 s2 opResult
    rfl

/-- Witness for C8: a throwing operation with a clobbered stored record
still ends with the lock cleared and the exception passed through. -/
theorem C8_witness :
    withLockRun "s/0" 100 [⟨0, none, some ⟨"s/0", 400⟩⟩] (some ⟨"other/1", 5⟩)
        (.error "boom") = some (.error "boom", none) ∧
      ((.error "boom" : Except String Nat) = .error "boom" ∧ (none : Option Lock) = none) :=
  ⟨by decide, C8_unconditional_clear.1 "s/0" 100 [⟨0, none, some ⟨"s/0", 400⟩⟩]
    (some ⟨"other/1", 5⟩) (.error "boom") (.error "boom") none (by decide)⟩

/-- C9: an RPC failure with the process not alive takes the restart path:
under the fast host lock, the cached running-config is cleared only when
it still equals the failed config by value (`clearIfCurrent`, which
otherwise leaves the store — config and installation — exactly unchanged),
the restart counter is incremented by one, and the loop re-enters
provisioning on the remaining trace. -/
theorem C9_dead_restart_frame :
    (∀ (failed : LocalAppConfig) (store : Store), store.config = some failed →
      clearIfCurrent failed store = { store with config := none }) ∧
    (∀ (failed : LocalAppConfig) (store : Store), store.config ≠ some failed →
      clearIfCurrent failed store = store) ∧
    (∀ (auth : String) (e : IterEnv Nat) (rest : List (IterEnv Nat)) (r : Nat)
      (store store1 : Store) (cfg : LocalAppConfig) (evs1 : List Event)
      (code : Option Nat),
      r < 5 → ensureLocalApp e.ensure store = (.ok cfg, store1, evs1) →
      e.op = .fail code false →
      withLocalAppLoop auth (e :: rest) r store =
        ((withLocalAppLoop auth rest (r + 1) (clearIfCurrent cfg store1)).1,
         (withLocalAppLoop auth rest (r + 1) (clearIfCurrent cfg store1)).2.1,
         (Event.acquireLock auth slowLockTimeout :: evs1
            ++ [Event.probe cfg.pid, Event.acquireLock auth fastLockTimeout])
           ++ (withLocalAppLoop auth rest (r + 1) (clearIfCurrent cfg store1)).2.2.1,
         (withLocalAppLoop auth rest (r + 1) (clearIfCurrent cfg store1)).2.2.2)) :=
  ⟨fun failed store h => by simp [clearIfCurrent, h],
   fun failed store h => by simp [clearIfCurrent, h],
   loop_dead_step⟩

/-- Witness for C9 at a concrete dead-process iteration. -/
theorem C9_witness :
    withLocalAppLoop "gitpod.io" [deadIter] 0 emptyStore =
      ((withLocalAppLoop "gitpod.io" ([] : List (IterEnv Nat)) 1
          (clearIfCurrent cachedCfg ⟨some cachedCfg, some freshInst⟩)).1,
       (withLocalAppLoop "gitpod.io" ([] : List (IterEnv Nat)) 1
          (clearIfCurrent cachedCfg ⟨some cachedCfg, some freshInst⟩)).2.1,
       (Event.acquireLock "gitpod.io" slowLockTimeout ::
          [Event.fetch, Event.install, Event.spawn]
          ++ [Event.probe cachedCfg.pid, Event.acquireLock "gitpod.io" fastLockTimeout])
         ++ (withLocalAppLoop "gitpod.io" ([] : List (IterEnv Nat)) 1
              (clearIfCurrent cachedCfg ⟨some cachedCfg, some freshInst⟩)).2.2.1,
       (withLocalAppLoop "gitpod.io" ([] : List (IterEnv Nat)) 1
          (clearIfCurrent cachedCfg ⟨some cachedCfg, some freshInst⟩)).2.2.2) :=
  C9_dead_restart_frame.2.2 "gitpod.io" deadIter [] 0 emptyStore
    ⟨some cachedCfg, some freshInst⟩ cachedCfg [Event.fetch, Event.install, Event.spawn]
    none (by decide) (by decide) rfl

/-- C10: when a cached running-config exists and the upgrade test does not
fire (fetch failed, no ETag, or ETag equal to the cached one),
`ensureLocalApp` returns the cached config with the store untouched and
the fetch as its only event — no executability check, no install, no
spawn, no probe of the recorded pid. A successful RPC iteration of the
loop likewise emits no probe, while every failing RPC iteration probes
the config's pid — so a dead helper is only detected when the operation
fails. -/
theorem C10_cached_config_no_checks :
    (∀ (env : EnsureEnv) (store : Store) (c : LocalAppConfig),
      store.config = some c →
      upgradeTriggered (effectiveDownload env) store.installation = false →
      ensureLocalApp env store = (.ok c, store, [Event.fetch])) ∧
    (∀ (auth : String) (e : IterEnv Nat) (rest : List (IterEnv Nat)) (r : Nat)
      (store store1 : Store) (cfg : LocalAppConfig) (evs1 : List Event) (v : Nat),
      r < 5 → ensureLocalApp e.ensure store = (.ok cfg, store1, evs1) → e.op = .ok v →
      withLocalAppLoop auth (e :: rest) r store =
        (.ok v, store1, Event.acquireLock auth slowLockTimeout :: evs1, r)) ∧
    (∀ (auth : String) (e : IterEnv Nat) (rest : List (IterEnv Nat)) (r : Nat)
      (store store1 : Store) (cfg : LocalAppConfig) (evs1 : List Event)
      (code : Option Nat) (alive : Bool),
      r < 5 → ensureLocalApp e.ensure store = (.ok cfg, store1, evs1) →
      e.op = .fail code alive →
      Event.probe cfg.pid ∈ (withLocalAppLoop auth (e :: rest) r store).2.2.1) :=
  ⟨ensure_cached, loop_success_step, loop_fail_probes⟩

/-- Witness for C10 at a concrete cached-config store. -/
theorem C10_witness :
    ensureLocalApp fetchOnlyEnv cachedStore = (.ok cachedCfg, cachedStore, [Event.fetch]) :=
  C10_cached_config_no_checks.1 fetchOnlyEnv cachedStore cachedCfg rfl rfl

end Gitpod
